import Mathlib

/-!
Verification of the `manufacture-engine` ECS core.

Shallow embedding of the runtime core (World, Storage variants, Entity/Token,
event double-buffer, scheduler, runtime borrow discipline) translated from the
Rust sources under `src/`.  Component values are specialised to `Nat` where the
Rust code is generic: none of the verified properties depend on the payload
type.  Rust `HashMap`/`BTreeMap`/`BTreeSet` state is modelled by association
lists with the maps' observable lookup/insert/remove semantics; `HashMap`
iteration order is arbitrary in Rust, so every theorem below depends only on
order-independent facts (or on single-entry maps whose order is unique).
-/

namespace ManufactureEngine

/-! ## Association-list primitives

Used to model `HashMap<usize, _>` / `BTreeMap<usize, _>` observable behaviour
(`get` / `insert` replaces an existing key / `remove` deletes the key). -/

/-- Lookup of a key in an association list, mirroring `HashMap::get`. -/
def assocGet {α : Type} (l : List (Nat × α)) (k : Nat) : Option α :=
  (l.find? (fun p => p.1 == k)).map Prod.snd

/-- Insert mirroring `HashMap::insert`: replace the value of an existing key
in place, otherwise append a fresh entry. -/
def assocInsert {α : Type} : List (Nat × α) → Nat → α → List (Nat × α)
  | [], k, v => [(k, v)]
  | (k₀, v₀) :: rest, k, v =>
    if k₀ == k then (k, v) :: rest else (k₀, v₀) :: assocInsert rest k v

/-- Removal mirroring `HashMap::remove`: the key is gone afterwards.  A Rust
map never holds a key twice, so dropping every matching entry is the same
observable operation. -/
def assocRemove {α : Type} (l : List (Nat × α)) (k : Nat) : List (Nat × α) :=
  l.filter (fun p => !(p.1 == k))

/-- String-keyed variant of `assocGet`, for the `HashMap<&'static str, _>`
registries of `World`. -/
def assocGetS {α : Type} (l : List (String × α)) (k : String) : Option α :=
  (l.find? (fun p => p.1 == k)).map Prod.snd

/-- String-keyed variant of `assocInsert`. -/
def assocInsertS {α : Type} : List (String × α) → String → α → List (String × α)
  | [], k, v => [(k, v)]
  | (k₀, v₀) :: rest, k, v =>
    if k₀ == k then (k, v) :: rest else (k₀, v₀) :: assocInsertS rest k v

/-! ## Storage variants (`src/src/core/storage.rs`)

`Storage<T>` contract: `insert(id, value)`, `remove(&id)`, `get(&id)`.
Component payloads are specialised to a type parameter `α`. -/

/-- `VecStorage`: a bare vector of `(entity-id, component)` pairs
(`src/src/core/storage.rs` lines 11-38). -/
structure VecStorage (α : Type) where
  inner : List (Nat × α)
  deriving DecidableEq

/-- `VecStorage::new`. -/
def VecStorage.new {α : Type} : VecStorage α := ⟨[]⟩

/-- `VecStorage::insert`: push only when no entry with the id exists
(a duplicate insert is a silent no-op, it does NOT overwrite). -/
def VecStorage.insert {α : Type} (s : VecStorage α) (index : Nat) (comp : α) :
    VecStorage α :=
  if (s.inner.find? (fun p => p.1 == index)).isNone then
    ⟨s.inner ++ [(index, comp)]⟩
  else s

/-- `VecStorage::remove`: locate the position of the first entry with the id
and remove it (`Vec::remove` shifts the tail); `List.eraseP` erases exactly
the first matching element and is the identity when none matches. -/
def VecStorage.remove {α : Type} (s : VecStorage α) (index : Nat) : VecStorage α :=
  ⟨s.inner.eraseP (fun p => p.1 == index)⟩

/-- `VecStorage::get`: linear scan for the first entry with the id. -/
def VecStorage.get {α : Type} (s : VecStorage α) (index : Nat) : Option α :=
  (s.inner.find? (fun p => p.1 == index)).map Prod.snd

/-- `HashMapStorage`: wrapper over `HashMap<usize, C>`
(`src/src/core/storage.rs` lines 45-68). -/
structure HashMapStorage (α : Type) where
  inner : List (Nat × α)
  deriving DecidableEq

/-- `HashMapStorage::new`. -/
def HashMapStorage.new {α : Type} : HashMapStorage α := ⟨[]⟩

/-- `HashMapStorage::insert` = `HashMap::insert`: overwrites an existing key. -/
def HashMapStorage.insert {α : Type} (s : HashMapStorage α) (index : Nat) (comp : α) :
    HashMapStorage α :=
  ⟨assocInsert s.inner index comp⟩

/-- `HashMapStorage::remove` = `HashMap::remove`. -/
def HashMapStorage.remove {α : Type} (s : HashMapStorage α) (index : Nat) :
    HashMapStorage α :=
  ⟨assocRemove s.inner index⟩

/-- `HashMapStorage::get` = `HashMap::get`. -/
def HashMapStorage.get {α : Type} (s : HashMapStorage α) (index : Nat) : Option α :=
  assocGet s.inner index

/-- `BTreeMapStorage`: wrapper over `BTreeMap<usize, C>`
(`src/src/core/storage.rs` lines 75-98); entries are kept sorted by key, which
is `BTreeMap`'s representation invariant. -/
structure BTreeMapStorage (α : Type) where
  inner : List (Nat × α)
  deriving DecidableEq

/-- `BTreeMapStorage::new`. -/
def BTreeMapStorage.new {α : Type} : BTreeMapStorage α := ⟨[]⟩

/-- Ordered insert with overwrite, the observable behaviour of
`BTreeMap::insert` on a sorted entry list. -/
def btreeInsert {α : Type} : List (Nat × α) → Nat → α → List (Nat × α)
  | [], k, v => [(k, v)]
  | (k₀, v₀) :: rest, k, v =>
    if k < k₀ then (k, v) :: (k₀, v₀) :: rest
    else if k == k₀ then (k, v) :: rest
    else (k₀, v₀) :: btreeInsert rest k v

/-- `BTreeMapStorage::insert` = `BTreeMap::insert`: overwrites an existing key. -/
def BTreeMapStorage.insert {α : Type} (s : BTreeMapStorage α) (index : Nat) (comp : α) :
    BTreeMapStorage α :=
  ⟨btreeInsert s.inner index comp⟩

/-- `BTreeMapStorage::remove` = `BTreeMap::remove`. -/
def BTreeMapStorage.remove {α : Type} (s : BTreeMapStorage α) (index : Nat) :
    BTreeMapStorage α :=
  ⟨assocRemove s.inner index⟩

/-- `BTreeMapStorage::get` = `BTreeMap::get`. -/
def BTreeMapStorage.get {α : Type} (s : BTreeMapStorage α) (index : Nat) : Option α :=
  assocGet s.inner index

/-- `Vec::swap_remove(i)`: replace element `i` with the last element and pop
the last; when `i` is already the last index it just pops. -/
def listSwapRemove {α : Type} (l : List α) (i : Nat) : List α :=
  match l.getLast? with
  | none => l
  | some last => if i + 1 == l.length then l.dropLast else (l.set i last).dropLast

/-- `DenseVecStorage`: dense vector plus a `HashMap` proxy from entity id to
vector slot (`src/src/core/storage.rs` lines 106-148). -/
structure DenseVecStorage (α : Type) where
  proxy : List (Nat × Nat)
  inner : List (Nat × α)
  deriving DecidableEq

/-- `DenseVecStorage::new`. -/
def DenseVecStorage.new {α : Type} : DenseVecStorage α := ⟨[], []⟩

/-- `DenseVecStorage::insert`: no-op when the id is already present, otherwise
record `id ↦ inner.len()` in the proxy and push the pair. -/
def DenseVecStorage.insert {α : Type} (s : DenseVecStorage α) (index : Nat) (comp : α) :
    DenseVecStorage α :=
  if (assocGet s.proxy index).isSome then s
  else ⟨assocInsert s.proxy index s.inner.length, s.inner ++ [(index, comp)]⟩

/-- `DenseVecStorage::remove`, translated verbatim from the source including
its fixup `let to_update = self.inner[*Index].0;` which indexes the post-swap
vector with the REMOVED entity id instead of the vacated slot index.  `none`
models a Rust panic (index out of bounds, or `unwrap` of a missing proxy
entry). -/
def DenseVecStorage.remove {α : Type} (s : DenseVecStorage α) (index : Nat) :
    Option (DenseVecStorage α) :=
  match assocGet s.proxy index with
  | none => some s
  | some innerIndex =>
    if s.inner.length ≤ innerIndex then none else
    let proxy1 := assocRemove s.proxy index
    let inner1 := listSwapRemove s.inner innerIndex
    if inner1.isEmpty then some ⟨proxy1, inner1⟩
    else
      match inner1.get? index with
      | none => none
      | some pair =>
        if (assocGet proxy1 pair.1).isSome then
          some ⟨assocInsert proxy1 pair.1 index, inner1⟩
        else none

/-- `DenseVecStorage::get`: proxy lookup, then vector indexing. -/
def DenseVecStorage.get {α : Type} (s : DenseVecStorage α) (index : Nat) : Option α :=
  (assocGet s.proxy index).bind (fun i => (s.inner.get? i).map Prod.snd)

/-! ## Running operation sequences over each variant (claim C9 / C5) -/

/-- A single call against the `Storage` contract. -/
inductive StorageOp where
  | ins (id : Nat) (v : Nat)
  | rem (id : Nat)
  deriving DecidableEq

/-- Run a sequence of operations on a `VecStorage`. -/
def runVecFrom (s : VecStorage Nat) : List StorageOp → VecStorage Nat
  | [] => s
  | .ins id v :: rest => runVecFrom (s.insert id v) rest
  | .rem id :: rest => runVecFrom (s.remove id) rest

/-- Run a sequence of operations on a `HashMapStorage`. -/
def runHashFrom (s : HashMapStorage Nat) : List StorageOp → HashMapStorage Nat
  | [] => s
  | .ins id v :: rest => runHashFrom (s.insert id v) rest
  | .rem id :: rest => runHashFrom (s.remove id) rest

/-- Run a sequence of operations on a `BTreeMapStorage`. -/
def runBTreeFrom (s : BTreeMapStorage Nat) : List StorageOp → BTreeMapStorage Nat
  | [] => s
  | .ins id v :: rest => runBTreeFrom (s.insert id v) rest
  | .rem id :: rest => runBTreeFrom (s.remove id) rest

/-- Run a sequence of operations on a `DenseVecStorage`; `none` once any step
panics. -/
def runDenseFrom (s : DenseVecStorage Nat) : List StorageOp → Option (DenseVecStorage Nat)
  | [] => some s
  | .ins id v :: rest => runDenseFrom (s.insert id v) rest
  | .rem id :: rest => (s.remove id).bind (fun s1 => runDenseFrom s1 rest)

/-- Run from an empty `VecStorage`. -/
def runVec (ops : List StorageOp) : VecStorage Nat := runVecFrom VecStorage.new ops

/-- Run from an empty `HashMapStorage`. -/
def runHash (ops : List StorageOp) : HashMapStorage Nat := runHashFrom HashMapStorage.new ops

/-- Run from an empty `BTreeMapStorage`. -/
def runBTree (ops : List StorageOp) : BTreeMapStorage Nat := runBTreeFrom BTreeMapStorage.new ops

/-- Run from an empty `DenseVecStorage`. -/
def runDense (ops : List StorageOp) : Option (DenseVecStorage Nat) :=
  runDenseFrom DenseVecStorage.new ops

/-- Does every insert of the sequence target an id that is absent at that
point?  Tracked against the `HashMapStorage` run. -/
def freshRunFrom (s : HashMapStorage Nat) : List StorageOp → Bool
  | [] => true
  | .ins id v :: rest => (s.get id).isNone && freshRunFrom (s.insert id v) rest
  | .rem id :: rest => freshRunFrom (s.remove id) rest

/-- Freshness of a sequence started on the empty storage. -/
def freshRun (ops : List StorageOp) : Bool := freshRunFrom HashMapStorage.new ops

/-! ## Entity and Token (`src/src/ECS/entity.rs`) -/

/-- The 32-bit instance hash; only equality of hashes is ever observed, so
`Nat` is an adequate carrier. -/
abbrev Hash := Nat

/-- `Entity`: numeric id plus random instance hash.  `Entity::new(id)` draws
`hash` from `rand::random()`; the models below take the drawn hash as an
explicit argument. -/
structure Entity where
  id : Nat
  hash : Hash
  deriving DecidableEq

/-- `Token`: copyable snapshot of `(id, hash, valid)`. -/
structure Token where
  id : Nat
  hash : Hash
  valid : Bool
  deriving DecidableEq

/-- `Entity::get_token`: a fresh token is always created valid. -/
def Entity.getToken (e : Entity) : Token := ⟨e.id, e.hash, true⟩

/-- `Token::validate(entity)`: when the ids match, set the flag to the hash
comparison; when they differ, do nothing.  Returns the (possibly updated)
token together with the returned flag, since the Rust method mutates `self`
and returns `self.valid`. -/
def Token.validate (t : Token) (e : Entity) : Token × Bool :=
  if t.id == e.id then
    let t1 : Token := { t with valid := t.hash == e.hash }
    (t1, t1.valid)
  else (t, t.valid)

/-! ## World entity bookkeeping (`src/src/ECS/world.rs`)

The value-level slice of `World` that `spawn` / `despawn` /
`despawn_with_token` touch: the `BTreeMap<usize, Entity>` of live entities,
the `BTreeSet<usize>` free-id set, and the registered component storages.
Storages are modelled HashMap-backed (`StorageWrapper::remove` forwards to the
variant's `remove`); the runtime borrow discipline is modelled separately
below. -/

structure World where
  entities : List (Nat × Entity)
  nextFree : List Nat
  components : List (String × List (Nat × Nat))
  deriving DecidableEq

/-- `World::new`. -/
def World.new : World := ⟨[], [], []⟩

/-- `BTreeSet::pop_first` reads the minimum element. -/
def listMin? : List Nat → Option Nat
  | [] => none
  | x :: xs =>
    match listMin? xs with
    | none => some x
    | some m => some (min x m)

/-- `World::spawn` (id-allocation part): `next_free.pop_first().unwrap_or(entities.len())`,
then `entities.insert(next_id, Entity::new(next_id))`.  The random hash of the
new entity is passed in; returns the allocated id. -/
def World.spawn (w : World) (h : Hash) : World × Nat :=
  match listMin? w.nextFree with
  | some m =>
    ({ w with
        nextFree := w.nextFree.erase m,
        entities := assocInsert w.entities m ⟨m, h⟩ }, m)
  | none =>
    let nextId := w.entities.length
    ({ w with entities := assocInsert w.entities nextId ⟨nextId, h⟩ }, nextId)

/-- Drop entity `id` from every registered storage, as `despawn`'s loop
`for storage in self.components.values_mut() { ...remove(id) }` does. -/
def World.removeFromStorages (w : World) (id : Nat) : World :=
  { w with components := w.components.map (fun p => (p.1, assocRemove p.2 id)) }

/-- `World::despawn(id)`: remove the entity record; when one was present also
drop its components from every storage and return `true`, else `false`.
Note: the id is NOT added to `next_free` (nothing in the source ever inserts
into `next_free`). -/
def World.despawn (w : World) (id : Nat) : World × Bool :=
  if (assocGet w.entities id).isSome then
    (({ w with entities := assocRemove w.entities id }).removeFromStorages id, true)
  else (w, false)

/-- `World::despawn_with_token(token)`, translated verbatim: an already
invalid token is a no-op; otherwise the entity under `token.id()` is looked
up and `if token.validate(entity) { return false }` — so a MATCHING token
returns `false` without despawning, while a hash-MISmatching token falls
through and despawns. -/
def World.despawnWithToken (w : World) (t : Token) : World × Bool :=
  if !t.valid then (w, false)
  else
    match assocGet w.entities t.id with
    | some e =>
      if (Token.validate t e).2 then (w, false)
      else
        (({ w with entities := assocRemove w.entities t.id }).removeFromStorages t.id, true)
    | none => (w, false)

/-- `WorldQuery::validate_token` (`src/src/ECS/fetch/query.rs` lines 172-179):
`token.valid() && entities.get(&token.id()).is_some_and(|e| token.validate(e))`.
Takes the world's entity map, returns the updated token and the flag. -/
def validateToken (entities : List (Nat × Entity)) (t : Token) : Token × Bool :=
  if t.valid then
    match assocGet entities t.id with
    | some e => Token.validate t e
    | none => (t, false)
  else (t, false)

/-! ## Event double-buffer (`src/src/ECS/events.rs`)

`EventBufferMap` holds, per registered event id, one queue in `read_buffer`
and one in `write_buffer`.  The model below is the pair of queues of a single
registered event type with payload `ε`. -/

structure EventBuffers (ε : Type) where
  readBuf : List ε
  writeBuf : List ε
  deriving DecidableEq

/-- `EventBufferMap::swap_buffers`: clear the read buffer, then swap — the new
read buffer is the former write buffer, the new write buffer is the cleared
former read buffer. -/
def EventBuffers.swapBuffers {ε : Type} (b : EventBuffers ε) : EventBuffers ε :=
  ⟨b.writeBuf, []⟩

/-- `EventBufferMap::get_reader`: the source takes its queue from
`self.write_buffer.get(T::ID)` — the reader view is the WRITE buffer. -/
def EventBuffers.getReader {ε : Type} (b : EventBuffers ε) : List ε :=
  b.writeBuf

/-- `EventWriter`: a shared view of the read queue plus a mutable view of the
write queue (`EventBufferMap::get_writer`). -/
structure EventWriterView (ε : Type) where
  read : List ε
  write : List ε
  deriving DecidableEq

/-- `EventBufferMap::get_writer`. -/
def EventBuffers.getWriter {ε : Type} (b : EventBuffers ε) : EventWriterView ε :=
  ⟨b.readBuf, b.writeBuf⟩

/-- `EventWriter::send`: push onto the write queue. -/
def EventBuffers.send {ε : Type} (b : EventBuffers ε) (e : ε) : EventBuffers ε :=
  { b with writeBuf := b.writeBuf ++ [e] }

/-- `EventBufferMap::get_active_events`, translated verbatim: iterate the READ
buffer with `map_while(|(id, queue)| Some(*id).filter(|_| queue.borrow().is_empty()))`
— it emits ids whose queue IS empty and stops at the first id whose queue is
non-empty.  The argument is the read buffer as an entry list (Rust `HashMap`
iteration order is arbitrary; the theorems below use single-entry maps, whose
order is unique). -/
def getActiveEvents (readBuf : List (String × List Nat)) : List String :=
  match readBuf with
  | [] => []
  | (id, q) :: rest => if q.isEmpty then id :: getActiveEvents rest else []

/-! ## Scheduler (`src/src/ECS/dispatcher.rs`, `StagesBuilder`)

Systems are `(id, run-order constraints)` pairs; a layer is the portion of
one execution category sitting at one depth of the run-order graph.  Rust
iterates layers as `HashMap`s in arbitrary order; the shift SET computed from
a full scan of a layer is order-independent, so the model fixes a list order
and all stated facts (layer membership, stage separation, the circular-error
id set) are order-robust. -/

/-- `RunOrder` (`Before(id)` / `After(id)`). -/
inductive RunOrd where
  | before (id : String)
  | after (id : String)
  deriving DecidableEq

/-- One scheduler layer: systems with their run-order constraint lists. -/
abbrev Layer := List (String × List RunOrd)

/-- Membership of a system id in a layer (`layer.contains_key(id)`). -/
def layerContains (layer : Layer) (id : String) : Bool :=
  layer.any (fun p => p.1 == id)

/-- `HashSet::insert` on the shift set, modelled as ordered dedup append. -/
def insertShift (s : List String) (id : String) : List String :=
  if s.contains id then s else s ++ [id]

/-- One full scan of a layer collecting the shift set: `Before(x)` with `x` in
the layer marks `x`; `After(x)` with `x` in the layer marks the constrained
system itself. -/
def computeShifts (layer : Layer) : List String :=
  layer.foldl
    (fun shifts entry =>
      entry.2.foldl
        (fun shifts ord =>
          match ord with
          | .before id => if layerContains layer id then insertShift shifts id else shifts
          | .after id => if layerContains layer id then insertShift shifts entry.1 else shifts)
        shifts)
    []

/-- Build-phase failure: the circular run-order panic (carrying the offending
layer's system ids) or fuel exhaustion of the model (never hit in the
theorems, which supply fuel ≥ the system count). -/
inductive BuildErr where
  | circular (ids : List String)
  | fuelOut
  deriving DecidableEq

/-- `StagesBuilder::build_run_order_graph`: repeatedly scan the newest layer;
an empty shift set ends the loop, a shift set equal to the whole layer is the
fatal circular-run-order error, otherwise the shifted systems move to a fresh
next layer which is scanned next. -/
def buildRunOrderGraph (fuel : Nat) (layer : Layer) : Except BuildErr (List Layer) :=
  match fuel with
  | 0 => .error .fuelOut
  | fuel + 1 =>
    let shifts := computeShifts layer
    if shifts.isEmpty then .ok [layer]
    else if shifts.length == layer.length then .error (.circular (layer.map Prod.fst))
    else
      let remaining := layer.filter (fun p => !(shifts.contains p.1))
      let moved := layer.filter (fun p => shifts.contains p.1)
      (buildRunOrderGraph fuel moved).map (fun layers => remaining :: layers)

/-- One step of `StagesBuilder::build`'s inner loop: append the system to the
last stage; when that stage reaches `MAX_SYS_PER_STAGE` (5), open a new one. -/
def pushSystem (stages : List (List String)) (sysId : String) : List (List String) :=
  match stages.getLast? with
  | none => [[sysId]]
  | some last =>
    let stages1 := stages.dropLast ++ [last ++ [sysId]]
    if (last ++ [sysId]).length == 5 then stages1 ++ [[]] else stages1

/-- Stage materialisation of `StagesBuilder::build`: every layer opens a fresh
stage, then its systems are pushed with the capacity-5 split. -/
def buildStages (layers : List (List String)) : List (List String) :=
  layers.foldl (fun stages layer => layer.foldl pushSystem (stages ++ [[]])) []

/-- `StagesBuilder::build`: run-order graph, then stage materialisation. -/
def stagesBuild (fuel : Nat) (layer : Layer) : Except BuildErr (List (List String)) :=
  (buildRunOrderGraph fuel layer).map
    (fun g => buildStages (g.map (fun l => l.map Prod.fst)))

/-- Index of the stage containing a system id. -/
def stageIdx (stages : List (List String)) (id : String) : Option Nat :=
  stages.findIdx? (fun st => st.contains id)

/-! ## Runtime borrow discipline (`src/src/ECS/world.rs` fetches)

Every registry entry of `World` sits in a `std::cell::RefCell`; `fetch` /
`fetch_res` call `borrow()`, `fetch_mut` / `fetch_res_mut` /
`get_trigger_writer` / `get_command_writer` call `borrow_mut()`, and
`get_reader` / `get_writer` borrow the event queues.  A `RefCell` admits any
number of live shared borrows or exactly one live mutable borrow; a violating
borrow panics.  `BorrowState` is the borrow flag of one cell, `none` models
the panic, and the world model tracks the flag of every cell (the stored
values are irrelevant to the aliasing claim). -/

structure BorrowState where
  readers : Nat
  writer : Bool
  deriving DecidableEq

/-- Borrow flag of an untouched `RefCell`. -/
def BorrowState.new : BorrowState := ⟨0, false⟩

/-- `RefCell::borrow`: succeeds while no mutable borrow is live. -/
def tryBorrow : BorrowState → Option BorrowState
  | ⟨r, false⟩ => some ⟨r + 1, false⟩
  | ⟨_, true⟩ => none

/-- `RefCell::borrow_mut`: succeeds only while no borrow at all is live. -/
def tryBorrowMut : BorrowState → Option BorrowState
  | ⟨0, false⟩ => some ⟨0, true⟩
  | _ => none

/-- The borrow flags of a `World`: one cell per registered component id, one
per resource id, a `(read queue, write queue)` cell pair per event id, and
the trigger / command queue cells. -/
structure BorrowWorld where
  components : List (String × BorrowState)
  resources : List (String × BorrowState)
  events : List (String × (BorrowState × BorrowState))
  triggerQ : BorrowState
  commandQ : BorrowState
  deriving DecidableEq

/-- The shared shape of every keyed fetch in `World`: check that the identity
is registered (panic otherwise), then borrow its cell and store the updated
borrow flag back. -/
def fetchWith (step : BorrowState → Option BorrowState)
    (l : List (String × BorrowState)) (k : String) : Option (List (String × BorrowState)) :=
  match assocGetS l k with
  | none => none
  | some st => (step st).map (fun st1 => assocInsertS l k st1)

/-- `World::fetch::<T>`: panic when `T` is unregistered, otherwise a shared
borrow of `T`'s storage cell. -/
def BorrowWorld.fetchComp (w : BorrowWorld) (c : String) : Option BorrowWorld :=
  (fetchWith tryBorrow w.components c).map (fun cs => { w with components := cs })

/-- `World::fetch_mut::<T>`: panic when unregistered, otherwise a mutable
borrow of `T`'s storage cell. -/
def BorrowWorld.fetchCompMut (w : BorrowWorld) (c : String) : Option BorrowWorld :=
  (fetchWith tryBorrowMut w.components c).map (fun cs => { w with components := cs })

/-- `World::fetch_res::<T>`. -/
def BorrowWorld.fetchRes (w : BorrowWorld) (r : String) : Option BorrowWorld :=
  (fetchWith tryBorrow w.resources r).map (fun rs => { w with resources := rs })

/-- `World::fetch_res_mut::<T>`. -/
def BorrowWorld.fetchResMut (w : BorrowWorld) (r : String) : Option BorrowWorld :=
  (fetchWith tryBorrowMut w.resources r).map (fun rs => { w with resources := rs })

/-- `EventBufferMap::get_reader` borrow behaviour: a shared borrow of the
write-buffer queue (the buffer the source reads, see `getReader`). -/
def BorrowWorld.getEventReaderB (w : BorrowWorld) (e : String) : Option BorrowWorld :=
  match assocGetS w.events e with
  | none => none
  | some (rq, wq) =>
    (tryBorrow wq).map (fun wq1 => { w with events := assocInsertS w.events e (rq, wq1) })

/-- `EventBufferMap::get_writer` borrow behaviour: a shared borrow of the
read queue plus a mutable borrow of the write queue. -/
def BorrowWorld.getEventWriterB (w : BorrowWorld) (e : String) : Option BorrowWorld :=
  match assocGetS w.events e with
  | none => none
  | some (rq, wq) =>
    match tryBorrow rq, tryBorrowMut wq with
    | some rq1, some wq1 =>
      some { w with events := assocInsertS w.events e (rq1, wq1) }
    | _, _ => none

/-- `World::get_trigger_writer`: `self.triggers.borrow_mut()`. -/
def BorrowWorld.getTriggerWriterB (w : BorrowWorld) : Option BorrowWorld :=
  (tryBorrowMut w.triggerQ).map (fun st1 => { w with triggerQ := st1 })

/-- `World::get_command_writer`: `self.commands.borrow_mut()`. -/
def BorrowWorld.getCommandWriterB (w : BorrowWorld) : Option BorrowWorld :=
  (tryBorrowMut w.commandQ).map (fun st1 => { w with commandQ := st1 })

/-! ## Component queries (`src/src/ECS/fetch/query.rs`)

A `WorldQuery`'s data shape is a tuple whose slots are `&C` / `&mut C`
(required) or `Option<&C>` / `Option<&mut C>` (optional); presence behaviour
does not depend on mutability, so a slot is `req c` or `opt c` over the
component id.  The fetched storages are a read view `CompStore`; payloads are
`Nat`. -/

/-- One slot of a query tuple. -/
inductive QElem where
  | req (c : String)
  | opt (c : String)
  deriving DecidableEq

/-- The read view of the fetched component storages. -/
abbrev CompStore := String → Nat → Option Nat

/-- `QueryData::get` of a single slot: a required slot propagates storage
absence (`fetched.get(id)` under `?`), an optional slot is always wrapped in
`Some` (source comment: the getter always returns a valid item). -/
def elemGet (st : CompStore) (e : QElem) (id : Nat) : Option (Option Nat) :=
  match e with
  | .req c => (st c id).map some
  | .opt c => some (st c id)

/-- `QueryData::get` of a tuple (the `query_impl!` expansion): each slot is
fetched with `?`, so the first `None` of a REQUIRED slot aborts the whole
tuple. -/
def dataGet (st : CompStore) : List QElem → Nat → Option (List (Option Nat))
  | [], _ => some []
  | e :: es, id =>
    match elemGet st e id with
    | none => none
    | some v => (dataGet st es id).map (fun vs => v :: vs)

/-- A query filter: `With<C>` / `Without<C>` (`src/src/core/types/mod.rs`). -/
inductive QFilt where
  | withC (c : String)
  | withoutC (c : String)
  deriving DecidableEq

/-- `QueryFilter::filter` of one filter: `With` tests `get(index).is_some()`,
`Without` tests `is_none()` on the filter's own read-only fetch. -/
def filtPass (st : CompStore) (f : QFilt) (id : Nat) : Bool :=
  match f with
  | .withC c => (st c id).isSome
  | .withoutC c => (st c id).isNone

/-- `filter_impl!` tuple conjunction of filters. -/
def filtersPass (st : CompStore) (fs : List QFilt) (id : Nat) : Bool :=
  fs.all (fun f => filtPass st f id)

/-- The slice of `WorldQuery` that `get`/`get_mut` read: the live-entity key
set and the fetched storages. -/
structure QueryWorld where
  live : List Nat
  st : CompStore

/-- `WorldQuery::get`: `entities.contains_key(id) && F::filter(..)`, then
`D::get`. -/
def queryGet (q : QueryWorld) (elems : List QElem) (fs : List QFilt) (id : Nat) :
    Option (List (Option Nat)) :=
  if q.live.contains id && filtersPass q.st fs id then dataGet q.st elems id else none

/-- `WorldQuery::get_mut`: early return on a dead id, early return on a failed
filter, then `D::get_mut` (whose presence behaviour equals `D::get`). -/
def queryGetMut (q : QueryWorld) (elems : List QElem) (fs : List QFilt) (id : Nat) :
    Option (List (Option Nat)) :=
  if !(q.live.contains id) then none
  else if !(filtersPass q.st fs id) then none
  else dataGet q.st elems id

/-! ## Concrete scenario states used by the claim theorems -/

/-- A world holding one live entity `0` with hash `42` and one registered
component `"pos"` that entity `0` carries. -/
def c1World : World := ⟨[(0, ⟨0, 42⟩)], [], [("pos", [(0, 7)])]⟩

/-- The world after two spawns from empty (hashes 100 and 101). -/
def c3World2 : World := ((World.new.spawn 100).1.spawn 101).1

/-- The previous world after `despawn(0)`. -/
def c3World3 : World := (c3World2.despawn 0).1

/-- The event buffers of one event type right after `send` in tick N, starting
from empty buffers. -/
def c2TickN : EventBuffers Nat := EventBuffers.send ⟨[], []⟩ 0

/-- The dense storage produced by `insert(1,10); insert(0,20); insert(2,30)`. -/
def c5Before : Option (DenseVecStorage Nat) :=
  runDense [.ins 1 10, .ins 0 20, .ins 2 30]

/-- The same storage after additionally `remove(&1)`. -/
def c5After : Option (DenseVecStorage Nat) :=
  runDense [.ins 1 10, .ins 0 20, .ins 2 30, .rem 1]

/-- The three-system Logic category of claim C6: A unconstrained, B with
`After(A)`, C with `Before(A)`. -/
def c6Layer : Layer := [("A", []), ("B", [.after "A"]), ("C", [.before "A"])]

/-- The circular configuration of claim C6: A after B, B after C, C after A. -/
def c6Cyclic : Layer := [("A", [.after "B"]), ("B", [.after "C"]), ("C", [.after "A"])]

/-- A fresh borrow world with one registered component `"pos"`, one resource
`"time"` and one event `"ev"`. -/
def c7w0 : BorrowWorld :=
  ⟨[("pos", ⟨0, false⟩)], [("time", ⟨0, false⟩)],
   [("ev", (⟨0, false⟩, ⟨0, false⟩))], ⟨0, false⟩, ⟨0, false⟩⟩

/-- The world `c7w0` while a `fetch_mut::<pos>` guard is live. -/
def c7w0m : BorrowWorld :=
  ⟨[("pos", ⟨0, true⟩)], [("time", ⟨0, false⟩)],
   [("ev", (⟨0, false⟩, ⟨0, false⟩))], ⟨0, false⟩, ⟨0, false⟩⟩

/-- The world `c7w0` while a `fetch::<pos>` guard is live. -/
def c7w0r : BorrowWorld :=
  ⟨[("pos", ⟨1, false⟩)], [("time", ⟨0, false⟩)],
   [("ev", (⟨0, false⟩, ⟨0, false⟩))], ⟨0, false⟩, ⟨0, false⟩⟩

/-- The world `c7w0` while a `fetch_res_mut::<time>` guard is live. -/
def c7w0sm : BorrowWorld :=
  ⟨[("pos", ⟨0, false⟩)], [("time", ⟨0, true⟩)],
   [("ev", (⟨0, false⟩, ⟨0, false⟩))], ⟨0, false⟩, ⟨0, false⟩⟩

/-- The world `c7w0` while a `fetch_res::<time>` guard is live. -/
def c7w0sr : BorrowWorld :=
  ⟨[("pos", ⟨0, false⟩)], [("time", ⟨1, false⟩)],
   [("ev", (⟨0, false⟩, ⟨0, false⟩))], ⟨0, false⟩, ⟨0, false⟩⟩

/-- The world `c7w0` while an `EventWriter<ev>` guard is live. -/
def c7w0e : BorrowWorld :=
  ⟨[("pos", ⟨0, false⟩)], [("time", ⟨0, false⟩)],
   [("ev", (⟨1, false⟩, ⟨0, true⟩))], ⟨0, false⟩, ⟨0, false⟩⟩

/-- The world `c7w0` while a `TriggerWriter` guard is live. -/
def c7w0t : BorrowWorld :=
  ⟨[("pos", ⟨0, false⟩)], [("time", ⟨0, false⟩)],
   [("ev", (⟨0, false⟩, ⟨0, false⟩))], ⟨0, true⟩, ⟨0, false⟩⟩

/-- The world `c7w0` while a `CommandWriter` guard is live. -/
def c7w0c : BorrowWorld :=
  ⟨[("pos", ⟨0, false⟩)], [("time", ⟨0, false⟩)],
   [("ev", (⟨0, false⟩, ⟨0, false⟩))], ⟨0, false⟩, ⟨0, true⟩⟩

/-- Simulation invariant relating the entry lists of a `VecStorage`, a
`HashMapStorage` and a `BTreeMapStorage`: the vector's keys are duplicate-free
and all three agree pointwise under `get`. -/
structure StorInv (v h b : List (Nat × Nat)) : Prop where
  nodup : (v.map Prod.fst).Nodup
  vh : ∀ k, assocGet v k = assocGet h k
  hb : ∀ k, assocGet h k = assocGet b k


/-- Claim C1: `despawn(id)` behaves as specified (removes the entity and its
components, `true` then `false` on a double despawn, no-op `false` on a dead
id), but `despawn_with_token` is INVERTED: on the world `c1World`, a token
carrying the matching `(id = 0, hash = 42)` of the live entity returns
`false` and removes nothing, while a token with matching id but WRONG hash 99
despawns the live entity and returns `true`.  This evaluates the code at the
failing input of the claim, which requires the exact opposite. -/
theorem c1_despawn_with_token_inverted :
    (c1World.despawn 0).2 = true
      ∧ (c1World.despawn 0).1.entities = []
      ∧ (c1World.despawn 0).1.components = [("pos", [])]
      ∧ ((c1World.despawn 0).1.despawn 0).2 = false
      ∧ ((c1World.despawn 0).1.despawn 0).1 = (c1World.despawn 0).1
      ∧ (c1World.despawn 5) = (c1World, false)
      ∧ c1World.despawnWithToken ⟨0, 42, true⟩ = (c1World, false)
      ∧ (c1World.despawnWithToken ⟨0, 99, true⟩).2 = true
      ∧ (c1World.despawnWithToken ⟨0, 99, true⟩).1.entities = [] := by
  decide

/-- Claim C2: the event written in tick N (buffers `c2TickN`) is VISIBLE to a
reader obtained in tick N — `get_reader` takes its queue from the write
buffer — and INVISIBLE after one `swap_event_buffers`, the exact opposite of
the claim; the writer part holds (its write view contains what was sent this
tick). -/
theorem c2_reader_reads_current_tick :
    c2TickN.getReader = [0]
      ∧ c2TickN.swapBuffers.getReader = []
      ∧ c2TickN.swapBuffers.swapBuffers.getReader = []
      ∧ c2TickN.getWriter.write = [0]
      ∧ c2TickN.getWriter.read = [] := by
  decide

/-- Claim C3: nothing ever inserts into `next_free`, so after
`spawn(); spawn(); despawn(0)` the free set is still empty and the next
`spawn` allocates `entities.len() = 1` — the id of the still-live entity 1 —
silently replacing its record (hash 101 becomes 102), contradicting the
claim that spawn prefers recycled ids and never allocates a live id. -/
theorem c3_spawn_clobbers_live_entity :
    (World.new.spawn 100).2 = 0
      ∧ ((World.new.spawn 100).1.spawn 101).2 = 1
      ∧ (c3World2.despawn 0).2 = true
      ∧ c3World3.nextFree = []
      ∧ assocGet c3World3.entities 1 = some ⟨1, 101⟩
      ∧ (c3World3.spawn 102).2 = 1
      ∧ assocGet (c3World3.spawn 102).1.entities 1 = some ⟨1, 102⟩ := by
  decide

/-- Claim C4: `get_active_events` keeps ids whose read-buffer queue IS empty
and stops at the first non-empty queue — with a single registered event it
returns `[]` when the queue holds an event and `["E"]` when it is empty,
the exact inverse of the claim (and so the dispatcher runs responders on
exactly the wrong ticks). -/
theorem c4_active_events_inverted :
    getActiveEvents [("E", [0])] = []
      ∧ getActiveEvents [("E", [])] = ["E"] := by
  decide

/-- Claim C5: `DenseVecStorage::remove` uses the removed entity id to index
the post-swap vector (`self.inner[*Index]`) instead of the vacated slot: on
the storage built by `insert(1,10); insert(0,20); insert(2,30)`, removing
id 1 leaves the moved element's proxy entry stale, so `get(&2)` silently
becomes `None` although the claim requires it to still return `30` (the
value is still physically in the vector). -/
theorem c5_densevec_remove_corrupts :
    c5Before.bind (fun s => s.get 2) = some 30
      ∧ c5After.isSome = true
      ∧ c5After.bind (fun s => s.get 2) = none
      ∧ c5After.bind (fun s => s.get 0) = some 20
      ∧ c5After.bind (fun s => s.get 1) = none
      ∧ c5After = some ⟨[(0, 1), (2, 2)], [(2, 30), (0, 20)]⟩ := by
  decide

/-- Claim C6: building the dispatcher over `{A, B(After A), C(Before A)}`
yields the stages `[[C], [A], [B]]` — C in a strictly earlier stage than A
and A strictly earlier than B — while the cyclic `{A after B, B after C,
C after A}` configuration makes `build_run_order_graph` fail with the
circular-run-order error carrying all three offending ids. -/
theorem c6_scheduler_ordering :
    stagesBuild 4 c6Layer = Except.ok [["C"], ["A"], ["B"]]
      ∧ stageIdx [["C"], ["A"], ["B"]] "C" = some 0
      ∧ stageIdx [["C"], ["A"], ["B"]] "A" = some 1
      ∧ stageIdx [["C"], ["A"], ["B"]] "B" = some 2
      ∧ buildRunOrderGraph 4 c6Cyclic = Except.error (.circular ["A", "B", "C"]) := by
  exact ⟨rfl, rfl, rfl, rfl, rfl⟩

/-! ## Borrow-discipline lemmas (claim C7) -/

theorem assocGetS_insertS_self {α : Type} :
    ∀ (l : List (String × α)) (k : String) (v : α),
      assocGetS (assocInsertS l k v) k = some v
  | [], k, v => by simp [assocInsertS, assocGetS]
  | (k₀, v₀) :: rest, k, v => by
    by_cases h : k₀ == k
    · simp [assocInsertS, h, assocGetS]
    · rw [show assocInsertS ((k₀, v₀) :: rest) k v = (k₀, v₀) :: assocInsertS rest k v
            from by simp [assocInsertS, h]]
      have ih := assocGetS_insertS_self rest k v
      simp only [assocGetS] at ih ⊢
      rw [List.find?_cons_of_neg _ (by simpa using h)]
      exact ih

theorem tryBorrowMut_some {st st1 : BorrowState} (h : tryBorrowMut st = some st1) :
    st1 = ⟨0, true⟩ := by
  rcases st with ⟨r, w⟩
  cases r <;> cases w <;> simp_all [tryBorrowMut]

theorem tryBorrow_some {st st1 : BorrowState} (h : tryBorrow st = some st1) :
    st1 = ⟨st.readers + 1, false⟩ := by
  rcases st with ⟨r, w⟩
  cases w <;> simp_all [tryBorrow]

theorem tryBorrowMut_writer {st : BorrowState} (h : st.writer = true) :
    tryBorrowMut st = none := by
  rcases st with ⟨r, w⟩
  cases r <;> simp at h <;> simp [h, tryBorrowMut]

theorem tryBorrowMut_readers {st : BorrowState} (h : 0 < st.readers) :
    tryBorrowMut st = none := by
  rcases st with ⟨r, w⟩
  cases r with
  | zero => simp at h
  | succ n => cases w <;> simp [tryBorrowMut]

theorem tryBorrow_of_not_writer {st : BorrowState} (h : st.writer = false) :
    tryBorrow st = some ⟨st.readers + 1, false⟩ := by
  rcases st with ⟨r, w⟩
  simp at h
  simp [h, tryBorrow]

theorem fetchWith_eq_some {step : BorrowState → Option BorrowState}
    {l l1 : List (String × BorrowState)} {k : String}
    (h : fetchWith step l k = some l1) :
    ∃ st st1, assocGetS l k = some st ∧ step st = some st1 ∧ l1 = assocInsertS l k st1 := by
  unfold fetchWith at h
  cases hg : assocGetS l k with
  | none => rw [hg] at h; simp at h
  | some st =>
    rw [hg] at h
    have h2 : Option.map (fun st1 => assocInsertS l k st1) (step st) = some l1 := h
    rcases Option.map_eq_some'.mp h2 with ⟨st1, hs, hl⟩
    exact ⟨st, st1, rfl, hs, hl.symm⟩

theorem fetchWith_mut_then_mut {l l1 : List (String × BorrowState)} {k : String}
    (h : fetchWith tryBorrowMut l k = some l1) :
    fetchWith tryBorrowMut l1 k = none := by
  obtain ⟨st, st1, _, hs, hl1⟩ := fetchWith_eq_some h
  have hst1 := tryBorrowMut_some hs
  unfold fetchWith
  rw [hl1, assocGetS_insertS_self, hst1]
  simp [tryBorrowMut_writer]

theorem fetchWith_shared_then_shared {l l1 : List (String × BorrowState)} {k : String}
    (h : fetchWith tryBorrow l k = some l1) :
    (fetchWith tryBorrow l1 k).isSome = true := by
  obtain ⟨st, st1, _, hs, hl1⟩ := fetchWith_eq_some h
  have hst1 := tryBorrow_some hs
  unfold fetchWith
  rw [hl1, assocGetS_insertS_self, hst1]
  simp [tryBorrow]

theorem fetchWith_shared_then_mut {l l1 : List (String × BorrowState)} {k : String}
    (h : fetchWith tryBorrow l k = some l1) :
    fetchWith tryBorrowMut l1 k = none := by
  obtain ⟨st, st1, _, hs, hl1⟩ := fetchWith_eq_some h
  have hst1 := tryBorrow_some hs
  unfold fetchWith
  rw [hl1, assocGetS_insertS_self, hst1]
  simp [tryBorrowMut_readers]

theorem fetchWith_mut_then_shared {l l1 : List (String × BorrowState)} {k : String}
    (h : fetchWith tryBorrowMut l k = some l1) :
    fetchWith tryBorrow l1 k = none := by
  obtain ⟨st, st1, _, hs, hl1⟩ := fetchWith_eq_some h
  have hst1 := tryBorrowMut_some hs
  unfold fetchWith
  rw [hl1, assocGetS_insertS_self, hst1]
  simp [tryBorrow]

/-- Claim C7: per registered component id, overlapping `fetch_mut` calls
panic on the second call, overlapping `fetch` calls both succeed, and a
`fetch` overlapping a `fetch_mut` (in either order) panics — i.e. any number
of live shared borrows or exactly one mutable borrow, enforced at borrow
time; the same discipline holds per resource, per event type's writer, and
for the trigger/command queues (`none` models the `RefCell` panic). -/
theorem c7_runtime_aliasing (w w1 : BorrowWorld) (c r e : String) :
    (BorrowWorld.fetchCompMut w c = some w1 → BorrowWorld.fetchCompMut w1 c = none)
      ∧ (BorrowWorld.fetchComp w c = some w1 → (BorrowWorld.fetchComp w1 c).isSome = true)
      ∧ (BorrowWorld.fetchComp w c = some w1 → BorrowWorld.fetchCompMut w1 c = none)
      ∧ (BorrowWorld.fetchCompMut w c = some w1 → BorrowWorld.fetchComp w1 c = none)
      ∧ (BorrowWorld.fetchResMut w r = some w1 → BorrowWorld.fetchResMut w1 r = none)
      ∧ (BorrowWorld.fetchRes w r = some w1 → (BorrowWorld.fetchRes w1 r).isSome = true)
      ∧ (BorrowWorld.fetchRes w r = some w1 → BorrowWorld.fetchResMut w1 r = none)
      ∧ (BorrowWorld.getEventWriterB w e = some w1 → BorrowWorld.getEventWriterB w1 e = none)
      ∧ (BorrowWorld.getTriggerWriterB w = some w1 → BorrowWorld.getTriggerWriterB w1 = none)
      ∧ (BorrowWorld.getCommandWriterB w = some w1 → BorrowWorld.getCommandWriterB w1 = none) := by
  refine ⟨?_, ?_, ?_, ?_, ?_, ?_, ?_, ?_, ?_, ?_⟩
  · intro h
    rcases Option.map_eq_some'.mp h with ⟨cs, hf, hw⟩
    subst hw
    have h2 := fetchWith_mut_then_mut hf
    simp [BorrowWorld.fetchCompMut, h2]
  · intro h
    rcases Option.map_eq_some'.mp h with ⟨cs, hf, hw⟩
    subst hw
    have h2 := fetchWith_shared_then_shared hf
    rcases Option.isSome_iff_exists.mp h2 with ⟨cs2, hcs2⟩
    simp [BorrowWorld.fetchComp, hcs2]
  · intro h
    rcases Option.map_eq_some'.mp h with ⟨cs, hf, hw⟩
    subst hw
    have h2 := fetchWith_shared_then_mut hf
    simp [BorrowWorld.fetchCompMut, h2]
  · intro h
    rcases Option.map_eq_some'.mp h with ⟨cs, hf, hw⟩
    subst hw
    have h2 := fetchWith_mut_then_shared hf
    simp [BorrowWorld.fetchComp, h2]
  · intro h
    rcases Option.map_eq_some'.mp h with ⟨rs, hf, hw⟩
    subst hw
    have h2 := fetchWith_mut_then_mut hf
    simp [BorrowWorld.fetchResMut, h2]
  · intro h
    rcases Option.map_eq_some'.mp h with ⟨rs, hf, hw⟩
    subst hw
    have h2 := fetchWith_shared_then_shared hf
    rcases Option.isSome_iff_exists.mp h2 with ⟨rs2, hrs2⟩
    simp [BorrowWorld.fetchRes, hrs2]
  · intro h
    rcases Option.map_eq_some'.mp h with ⟨rs, hf, hw⟩
    subst hw
    have h2 := fetchWith_shared_then_mut hf
    simp [BorrowWorld.fetchResMut, h2]
  · intro h
    unfold BorrowWorld.getEventWriterB at h ⊢
    cases hg : assocGetS w.events e with
    | none => rw [hg] at h; simp at h
    | some p =>
      rcases p with ⟨rq, wq⟩
      rw [hg] at h
      have h2 : (match tryBorrow rq, tryBorrowMut wq with
          | some rq1, some wq1 => some { w with events := assocInsertS w.events e (rq1, wq1) }
          | _, _ => none) = some w1 := h
      cases hr : tryBorrow rq with
      | none => rw [hr] at h2; simp at h2
      | some rq1 =>
        cases hm : tryBorrowMut wq with
        | none => rw [hr, hm] at h2; simp at h2
        | some wq1 =>
          rw [hr, hm] at h2
          have hw : ({ w with events := assocInsertS w.events e (rq1, wq1) } : BorrowWorld) = w1 := by
            simpa using h2
          subst hw
          have hwq1 := tryBorrowMut_some hm
          rw [show assocGetS (assocInsertS w.events e (rq1, wq1)) e = some (rq1, wq1)
                from assocGetS_insertS_self w.events e (rq1, wq1)]
          cases htb : tryBorrow rq1 <;>
            simp [hwq1, tryBorrowMut_writer]
  · intro h
    rcases Option.map_eq_some'.mp h with ⟨st1, hs, hw⟩
    subst hw
    have hst1 := tryBorrowMut_some hs
    simp [BorrowWorld.getTriggerWriterB, hst1, tryBorrowMut_writer]
  · intro h
    rcases Option.map_eq_some'.mp h with ⟨st1, hs, hw⟩
    subst hw
    have hst1 := tryBorrowMut_some hs
    simp [BorrowWorld.getCommandWriterB, hst1, tryBorrowMut_writer]

/-- Witness for claim C7: on the concrete fresh world `c7w0`, every first
borrow succeeds with the recorded guard state, and the theorem's conclusions
hold there. -/
theorem c7_runtime_aliasing_witness :
    BorrowWorld.fetchCompMut c7w0m "pos" = none
      ∧ (BorrowWorld.fetchComp c7w0r "pos").isSome = true
      ∧ BorrowWorld.fetchCompMut c7w0r "pos" = none
      ∧ BorrowWorld.fetchComp c7w0m "pos" = none
      ∧ BorrowWorld.fetchResMut c7w0sm "time" = none
      ∧ (BorrowWorld.fetchRes c7w0sr "time").isSome = true
      ∧ BorrowWorld.fetchResMut c7w0sr "time" = none
      ∧ BorrowWorld.getEventWriterB c7w0e "ev" = none
      ∧ BorrowWorld.getTriggerWriterB c7w0t = none
      ∧ BorrowWorld.getCommandWriterB c7w0c = none := by
  exact ⟨(c7_runtime_aliasing c7w0 c7w0m "pos" "time" "ev").1 (by decide),
    (c7_runtime_aliasing c7w0 c7w0r "pos" "time" "ev").2.1 (by decide),
    (c7_runtime_aliasing c7w0 c7w0r "pos" "time" "ev").2.2.1 (by decide),
    (c7_runtime_aliasing c7w0 c7w0m "pos" "time" "ev").2.2.2.1 (by decide),
    (c7_runtime_aliasing c7w0 c7w0sm "pos" "time" "ev").2.2.2.2.1 (by decide),
    (c7_runtime_aliasing c7w0 c7w0sr "pos" "time" "ev").2.2.2.2.2.1 (by decide),
    (c7_runtime_aliasing c7w0 c7w0sr "pos" "time" "ev").2.2.2.2.2.2.1 (by decide),
    (c7_runtime_aliasing c7w0 c7w0e "pos" "time" "ev").2.2.2.2.2.2.2.1 (by decide),
    (c7_runtime_aliasing c7w0 c7w0t "pos" "time" "ev").2.2.2.2.2.2.2.2.1 (by decide),
    (c7_runtime_aliasing c7w0 c7w0c "pos" "time" "ev").2.2.2.2.2.2.2.2.2 (by decide)⟩

/-! ## Query presence semantics (claim C8) -/

theorem dataGet_isSome (st : CompStore) (elems : List QElem) (id : Nat) :
    (dataGet st elems id).isSome = true ↔
      ∀ c, QElem.req c ∈ elems → (st c id).isSome = true := by
  induction elems with
  | nil => simp [dataGet]
  | cons e es ih =>
    cases e with
    | req c =>
      cases hc : st c id with
      | none =>
        simp only [dataGet, elemGet, hc, Option.map_none', Option.isSome_none,
          Bool.false_eq_true, false_iff]
        intro hall
        have h2 := hall c (List.mem_cons_self _ _)
        rw [hc] at h2
        simp at h2
      | some v =>
        simp only [dataGet, elemGet, hc, Option.map_some']
        have hmap : ∀ o : Option (List (Option Nat)),
            (o.map (fun vs => some v :: vs)).isSome = o.isSome := by
          intro o; cases o <;> simp
        rw [hmap, ih]
        constructor
        · intro h c2 hc2
          rcases List.mem_cons.mp hc2 with h1 | h1
          · cases h1; simp [hc]
          · exact h c2 h1
        · intro h c2 hc2
          exact h c2 (List.mem_cons_of_mem _ hc2)
    | opt c =>
      simp only [dataGet, elemGet]
      have hmap : ∀ o : Option (List (Option Nat)),
          (o.map (fun vs => st c id :: vs)).isSome = o.isSome := by
        intro o; cases o <;> simp
      rw [hmap, ih]
      constructor
      · intro h c2 hc2
        rcases List.mem_cons.mp hc2 with h1 | h1
        · cases h1
        · exact h c2 h1
      · intro h c2 hc2
        exact h c2 (List.mem_cons_of_mem _ hc2)

/-- Claim C8: for every query shape and entity id, `get(id)` returns `Some`
exactly when the id is live, every attached filter passes, and every
NON-optional slot's component is present; `get_mut` agrees with `get` on
presence, and an optional slot is individually wrapped (its getter yields
`some` of the storage lookup, never failing the tuple). -/
theorem c8_query_presence (q : QueryWorld) (elems : List QElem) (fs : List QFilt) (id : Nat) :
    ((queryGet q elems fs id).isSome = true ↔
        (q.live.contains id = true ∧ filtersPass q.st fs id = true ∧
          ∀ c, QElem.req c ∈ elems → (q.st c id).isSome = true))
      ∧ queryGetMut q elems fs id = queryGet q elems fs id
      ∧ (∀ c, elemGet q.st (QElem.opt c) id = some (q.st c id)) := by
  refine ⟨?_, ?_, fun c => rfl⟩
  · unfold queryGet
    cases h1 : q.live.contains id <;>
      cases h2 : filtersPass q.st fs id <;>
        simp [h1, h2, dataGet_isSome]
  · unfold queryGet queryGetMut
    cases h1 : q.live.contains id <;>
      cases h2 : filtersPass q.st fs id <;>
        simp [h1, h2]

/-! ## Token validation (claim C10) -/

/-- Claim C10: `Token::validate(entity)` updates the `valid` flag only when
the token's id equals the entity's id; on differing ids it returns the
current (possibly stale) flag and leaves the token unchanged.  World-level
`WorldQuery::validate_token` instead short-circuits on an already-false flag,
looks the entity up BY THE TOKEN'S ID, and — since the map entry under that
key has that id — reduces to the hash comparison. -/
theorem c10_token_validate (t : Token) (e : Entity) (hne : t.id ≠ e.id) :
    Token.validate t e = (t, t.valid)
      ∧ (∀ ents : List (Nat × Entity), t.valid = false → validateToken ents t = (t, false))
      ∧ (∀ ents : List (Nat × Entity), assocGet ents t.id = none →
          validateToken ents t = (t, false))
      ∧ (∀ (ents : List (Nat × Entity)) (e0 : Entity),
          t.valid = true → assocGet ents t.id = some e0 → e0.id = t.id →
          validateToken ents t =
            ({ t with valid := t.hash == e0.hash }, (t.hash == e0.hash))) := by
  refine ⟨?_, ?_, ?_, ?_⟩
  · unfold Token.validate
    simp [hne]
  · intro ents hv
    unfold validateToken
    simp [hv]
  · intro ents hget
    unfold validateToken
    cases hv : t.valid <;> simp [hget]
  · intro ents e0 hv hget hid
    unfold validateToken Token.validate
    have hbeq : (t.id == e0.id) = true := by simp [hid]
    simp only [hv, hget, if_true]
    simp [hbeq]

/-- Witness for claim C10: the token `(id 0, hash 5, valid)` — whose own
entity may long be despawned — validated against the live entity
`(id 1, hash 9)` still reports `true` and is returned unchanged. -/
theorem c10_token_validate_witness :
    Token.validate ⟨0, 5, true⟩ ⟨1, 9⟩ = (⟨0, 5, true⟩, true)
      ∧ validateToken [(1, ⟨1, 9⟩)] ⟨0, 5, false⟩ = (⟨0, 5, false⟩, false)
      ∧ validateToken [(1, ⟨1, 9⟩)] ⟨0, 5, true⟩ = (⟨0, 5, true⟩, false) := by
  have h := c10_token_validate ⟨0, 5, true⟩ ⟨1, 9⟩ (by decide)
  exact ⟨h.1, (c10_token_validate ⟨0, 5, false⟩ ⟨1, 9⟩ (by decide)).2.1 [(1, ⟨1, 9⟩)] rfl,
    h.2.2.1 [(1, ⟨1, 9⟩)] (by decide)⟩

/-! ## Association-list lemmas for the storage-variant comparison (claim C9) -/

theorem assocGet_cons {α : Type} (k₀ : Nat) (v₀ : α) (l : List (Nat × α)) (k : Nat) :
    assocGet ((k₀, v₀) :: l) k = if k₀ == k then some v₀ else assocGet l k := by
  simp only [assocGet, List.find?_cons]
  cases h : (k₀ == k) <;> simp [h]

theorem assocGet_insert_self {α : Type} (k : Nat) (v : α) :
    ∀ l : List (Nat × α), assocGet (assocInsert l k v) k = some v
  | [] => by simp [assocInsert, assocGet_cons]
  | (k₀, v₀) :: rest => by
    by_cases h0 : k₀ = k
    · subst h0
      rw [show assocInsert ((k₀, v₀) :: rest) k₀ v = (k₀, v) :: rest from by
            simp [assocInsert]]
      simp [assocGet_cons]
    · rw [show assocInsert ((k₀, v₀) :: rest) k v = (k₀, v₀) :: assocInsert rest k v from by
            simp [assocInsert, h0]]
      rw [assocGet_cons, if_neg (by simp [h0])]
      exact assocGet_insert_self k v rest

theorem assocGet_insert_ne {α : Type} (k k2 : Nat) (v : α) (hne : k ≠ k2) :
    ∀ l : List (Nat × α), assocGet (assocInsert l k v) k2 = assocGet l k2
  | [] => by
    simp only [assocInsert, assocGet_cons]
    rw [if_neg (by simp [hne])]
  | (k₀, v₀) :: rest => by
    by_cases h0 : k₀ = k
    · subst h0
      rw [show assocInsert ((k₀, v₀) :: rest) k₀ v = (k₀, v) :: rest from by
            simp [assocInsert]]
      rw [assocGet_cons, assocGet_cons, if_neg (by simp [hne]), if_neg (by simp [hne])]
    · rw [show assocInsert ((k₀, v₀) :: rest) k v = (k₀, v₀) :: assocInsert rest k v from by
            simp [assocInsert, h0]]
      rw [assocGet_cons, assocGet_cons]
      by_cases h2 : k₀ = k2
      · subst h2; simp
      · rw [if_neg (by simp [h2]), if_neg (by simp [h2])]
        exact assocGet_insert_ne k k2 v hne rest

theorem assocGet_remove_self {α : Type} (k : Nat) :
    ∀ l : List (Nat × α), assocGet (assocRemove l k) k = none
  | [] => rfl
  | (k₀, v₀) :: rest => by
    by_cases h0 : k₀ = k
    · subst h0
      rw [show assocRemove ((k₀, v₀) :: rest) k₀ = assocRemove rest k₀ from by
            simp [assocRemove, List.filter]]
      exact assocGet_remove_self k₀ rest
    · rw [show assocRemove ((k₀, v₀) :: rest) k = (k₀, v₀) :: assocRemove rest k from by
            have hf : (k₀ == k) = false := by simp [h0]
            simp [assocRemove, List.filter_cons, hf]]
      rw [assocGet_cons, if_neg (by simp [h0])]
      exact assocGet_remove_self k rest

theorem assocGet_remove_ne {α : Type} (k k2 : Nat) (hne : k ≠ k2) :
    ∀ l : List (Nat × α), assocGet (assocRemove l k) k2 = assocGet l k2
  | [] => rfl
  | (k₀, v₀) :: rest => by
    by_cases h0 : k₀ = k
    · subst h0
      rw [show assocRemove ((k₀, v₀) :: rest) k₀ = assocRemove rest k₀ from by
            simp [assocRemove, List.filter]]
      rw [assocGet_cons, if_neg (by simp [hne])]
      exact assocGet_remove_ne k₀ k2 hne rest
    · rw [show assocRemove ((k₀, v₀) :: rest) k = (k₀, v₀) :: assocRemove rest k from by
            have hf : (k₀ == k) = false := by simp [h0]
            simp [assocRemove, List.filter_cons, hf]]
      rw [assocGet_cons, assocGet_cons]
      by_cases h2 : k₀ = k2
      · subst h2; simp
      · rw [if_neg (by simp [h2]), if_neg (by simp [h2])]
        exact assocGet_remove_ne k k2 hne rest

theorem btreeGet_insert_self {α : Type} (k : Nat) (v : α) :
    ∀ l : List (Nat × α), assocGet (btreeInsert l k v) k = some v
  | [] => by simp [btreeInsert, assocGet_cons]
  | (k₀, v₀) :: rest => by
    unfold btreeInsert
    by_cases hlt : k < k₀
    · rw [if_pos hlt, assocGet_cons]; simp
    · rw [if_neg hlt]
      by_cases heq : k = k₀
      · rw [if_pos (by simp [heq]), assocGet_cons]; simp
      · rw [if_neg (by simp [heq]), assocGet_cons,
          if_neg (by simp [Ne.symm heq])]
        exact btreeGet_insert_self k v rest

theorem btreeGet_insert_ne {α : Type} (k k2 : Nat) (v : α) (hne : k ≠ k2) :
    ∀ l : List (Nat × α), assocGet (btreeInsert l k v) k2 = assocGet l k2
  | [] => by
    simp only [btreeInsert, assocGet_cons]
    rw [if_neg (by simp [hne])]
  | (k₀, v₀) :: rest => by
    unfold btreeInsert
    by_cases hlt : k < k₀
    · rw [if_pos hlt, assocGet_cons, if_neg (by simp [hne])]
    · rw [if_neg hlt]
      by_cases heq : k = k₀
      · have hk0 : k₀ ≠ k2 := fun hh => hne (heq.trans hh)
        rw [if_pos (by simp [heq]), assocGet_cons, assocGet_cons,
          if_neg (by simp [hne]), if_neg (by simp [hk0])]
      · rw [if_neg (by simp [heq]), assocGet_cons, assocGet_cons]
        by_cases h2 : k₀ = k2
        · subst h2; simp
        · rw [if_neg (by simp [h2]), if_neg (by simp [h2])]
          exact btreeGet_insert_ne k k2 v hne rest

theorem assocGet_eq_none_iff {α : Type} :
    ∀ (l : List (Nat × α)) (k : Nat), assocGet l k = none ↔ k ∉ l.map Prod.fst
  | [], k => by simp [assocGet]
  | (k₀, v₀) :: rest, k => by
    rw [assocGet_cons]
    by_cases h0 : k₀ = k
    · subst h0; simp
    · rw [if_neg (by simp [h0]), assocGet_eq_none_iff rest k, List.map_cons]
      simp [Ne.symm h0]

theorem assocGet_append_last {α : Type} (k k2 : Nat) (v : α) :
    ∀ l : List (Nat × α), assocGet l k2 = none →
      assocGet (l ++ [(k, v)]) k2 = if k == k2 then some v else none
  | [], _ => by simp [assocGet_cons]; rfl
  | (k₀, v₀) :: rest, h => by
    rw [assocGet_cons] at h
    by_cases h0 : k₀ = k2
    · rw [if_pos (by simp [h0])] at h; cases h
    · rw [if_neg (by simp [h0])] at h
      rw [List.cons_append, assocGet_cons, if_neg (by simp [h0])]
      exact assocGet_append_last k k2 v rest h

theorem assocGet_append_last_ne {α : Type} (k k2 : Nat) (v : α) (hne : k ≠ k2) :
    ∀ l : List (Nat × α), assocGet (l ++ [(k, v)]) k2 = assocGet l k2
  | [] => by
    simp only [List.nil_append, assocGet_cons]
    rw [if_neg (by simp [hne])]
  | (k₀, v₀) :: rest => by
    rw [List.cons_append, assocGet_cons, assocGet_cons]
    by_cases h0 : k₀ = k2
    · subst h0; simp
    · rw [if_neg (by simp [h0]), if_neg (by simp [h0])]
      exact assocGet_append_last_ne k k2 v hne rest

theorem assocGet_eraseP_self {α : Type} (k : Nat) :
    ∀ l : List (Nat × α), (l.map Prod.fst).Nodup →
      assocGet (l.eraseP (fun p => p.1 == k)) k = none
  | [], _ => rfl
  | (k₀, v₀) :: rest, hnd => by
    have hnd2 : k₀ ∉ rest.map Prod.fst ∧ (rest.map Prod.fst).Nodup := by
      simpa using hnd
    by_cases h0 : k₀ = k
    · subst h0
      rw [List.eraseP_cons_of_pos (by simp)]
      exact (assocGet_eq_none_iff rest k₀).mpr hnd2.1
    · rw [List.eraseP_cons_of_neg (by simp [h0])]
      rw [assocGet_cons, if_neg (by simp [h0])]
      exact assocGet_eraseP_self k rest hnd2.2

theorem assocGet_eraseP_ne {α : Type} (k k2 : Nat) (hne : k ≠ k2) :
    ∀ l : List (Nat × α), assocGet (l.eraseP (fun p => p.1 == k)) k2 = assocGet l k2
  | [] => rfl
  | (k₀, v₀) :: rest => by
    by_cases h0 : k₀ = k
    · subst h0
      rw [List.eraseP_cons_of_pos (by simp)]
      rw [assocGet_cons, if_neg (by simp [hne])]
    · rw [List.eraseP_cons_of_neg (by simp [h0])]
      rw [assocGet_cons, assocGet_cons]
      by_cases h2 : k₀ = k2
      · subst h2; simp
      · rw [if_neg (by simp [h2]), if_neg (by simp [h2])]
        exact assocGet_eraseP_ne k k2 hne rest

theorem storInv_insert {v h b : List (Nat × Nat)} (inv : StorInv v h b)
    {id v0 : Nat} (hfresh : assocGet h id = none) :
    StorInv (v ++ [(id, v0)]) (assocInsert h id v0) (btreeInsert b id v0) := by
  have hv : assocGet v id = none := (inv.vh id).trans hfresh
  refine ⟨?_, ?_, ?_⟩
  · rw [List.map_append, List.nodup_append]
    refine ⟨inv.nodup, by simp, ?_⟩
    intro a ha hmem
    simp only [List.map_cons, List.map_nil, List.mem_singleton] at hmem
    subst hmem
    exact ((assocGet_eq_none_iff v a).mp hv) ha
  · intro k
    by_cases hk : id = k
    · subst hk
      rw [assocGet_append_last id id v0 v hv, assocGet_insert_self]
      simp
    · rw [assocGet_append_last_ne id k v0 hk v, assocGet_insert_ne id k v0 hk h]
      exact inv.vh k
  · intro k
    by_cases hk : id = k
    · subst hk
      rw [assocGet_insert_self, btreeGet_insert_self]
    · rw [assocGet_insert_ne id k v0 hk h, btreeGet_insert_ne id k v0 hk b]
      exact inv.hb k

theorem storInv_remove {v h b : List (Nat × Nat)} (inv : StorInv v h b) (id : Nat) :
    StorInv (v.eraseP (fun p => p.1 == id)) (assocRemove h id) (assocRemove b id) := by
  refine ⟨?_, ?_, ?_⟩
  · exact List.Nodup.sublist (List.Sublist.map Prod.fst (List.eraseP_sublist v)) inv.nodup
  · intro k
    by_cases hk : id = k
    · subst hk
      rw [assocGet_eraseP_self id v inv.nodup, assocGet_remove_self id h]
    · rw [assocGet_eraseP_ne id k hk v, assocGet_remove_ne id k hk h]
      exact inv.vh k
  · intro k
    by_cases hk : id = k
    · subst hk
      rw [assocGet_remove_self id h, assocGet_remove_self id b]
    · rw [assocGet_remove_ne id k hk h, assocGet_remove_ne id k hk b]
      exact inv.hb k

theorem storInv_run :
    ∀ (ops : List StorageOp) (sv : VecStorage Nat) (sh : HashMapStorage Nat)
      (sb : BTreeMapStorage Nat),
      StorInv sv.inner sh.inner sb.inner → freshRunFrom sh ops = true →
      StorInv (runVecFrom sv ops).inner (runHashFrom sh ops).inner (runBTreeFrom sb ops).inner
  | [], _, _, _, inv, _ => inv
  | .ins id v :: rest, sv, sh, sb, inv, hf => by
    have h1 : (sh.get id).isNone = true ∧ freshRunFrom (sh.insert id v) rest = true := by
      simpa [freshRunFrom, Bool.and_eq_true] using hf
    have hnone : assocGet sh.inner id = none := by
      have h2 := h1.1
      simpa [HashMapStorage.get, Option.isNone_iff_eq_none] using h2
    have hvnone : assocGet sv.inner id = none := (inv.vh id).trans hnone
    have hfind : (sv.inner.find? (fun p => p.1 == id)).isNone = true := by
      have h3 : (sv.inner.find? (fun p => p.1 == id)).map Prod.snd = none := hvnone
      cases hcase : sv.inner.find? (fun p => p.1 == id) <;> simp_all
    simp only [runVecFrom, runHashFrom, runBTreeFrom]
    have hins : sv.insert id v = ⟨sv.inner ++ [(id, v)]⟩ := by
      unfold VecStorage.insert
      rw [if_pos hfind]
    rw [hins]
    exact storInv_run rest _ _ _ (storInv_insert inv hnone) h1.2
  | .rem id :: rest, sv, sh, sb, inv, hf => by
    have hf2 : freshRunFrom (sh.remove id) rest = true := by
      simpa [freshRunFrom] using hf
    simp only [runVecFrom, runHashFrom, runBTreeFrom]
    exact storInv_run rest _ _ _ (storInv_remove inv id) hf2

/-- Counterexample to claim C9 as stated: the variants do NOT agree on every
operation sequence — on `insert(0,10); insert(0,20)` the map-backed variants
overwrite (`get(0) = 20`) while `VecStorage` (and `DenseVecStorage`) silently
keep the first value (`get(0) = 10`). -/
theorem c9_insert_overwrite_divergence :
    VecStorage.get (runVec [.ins 0 10, .ins 0 20]) 0 = some 10
      ∧ HashMapStorage.get (runHash [.ins 0 10, .ins 0 20]) 0 = some 20
      ∧ BTreeMapStorage.get (runBTree [.ins 0 10, .ins 0 20]) 0 = some 20
      ∧ (runDense [.ins 0 10, .ins 0 20]).bind (fun s => s.get 0) = some 10
      ∧ some 10 ≠ (some 20 : Option Nat) := by
  decide

/-- Claim C9 (amended): restricted to operation sequences in which `insert`
is never called on an id that is currently present, `VecStorage`,
`HashMapStorage` and `BTreeMapStorage` are interchangeable — `get` agrees on
every id after any such sequence of inserts and removes.  (On duplicate
inserts the map-backed variants overwrite while the vector-backed ones no-op,
and `DenseVecStorage` additionally diverges once a `remove` occurs, see the
C5 theorem.) -/
theorem c9_storage_variants_agree (ops : List StorageOp) (k : Nat)
    (hfresh : freshRun ops = true) :
    VecStorage.get (runVec ops) k = HashMapStorage.get (runHash ops) k
      ∧ HashMapStorage.get (runHash ops) k = BTreeMapStorage.get (runBTree ops) k := by
  have inv0 : StorInv (VecStorage.new (α := Nat)).inner (HashMapStorage.new (α := Nat)).inner
      (BTreeMapStorage.new (α := Nat)).inner :=
    ⟨List.nodup_nil, fun _ => rfl, fun _ => rfl⟩
  have hinv := storInv_run ops VecStorage.new HashMapStorage.new BTreeMapStorage.new inv0 hfresh
  exact ⟨hinv.vh k, hinv.hb k⟩

/-- Witness for claim C9 (amended): the sequence
`insert(0,10); insert(1,20); remove(0)` has only fresh inserts, and all three
variants then agree at id 1. -/
theorem c9_storage_variants_agree_witness :
    freshRun [StorageOp.ins 0 10, StorageOp.ins 1 20, StorageOp.rem 0] = true
      ∧ (VecStorage.get (runVec [StorageOp.ins 0 10, StorageOp.ins 1 20, StorageOp.rem 0]) 1 =
            HashMapStorage.get (runHash [StorageOp.ins 0 10, StorageOp.ins 1 20, StorageOp.rem 0]) 1
          ∧ HashMapStorage.get (runHash [StorageOp.ins 0 10, StorageOp.ins 1 20, StorageOp.rem 0]) 1 =
            BTreeMapStorage.get (runBTree [StorageOp.ins 0 10, StorageOp.ins 1 20, StorageOp.rem 0]) 1) :=
  ⟨by decide,
    c9_storage_variants_agree [StorageOp.ins 0 10, StorageOp.ins 1 20, StorageOp.rem 0] 1 (by decide)⟩

end ManufactureEngine
